import Mathlib

/- Verification development for the Open3D RANSAC global-registration example
   (`examples/python/pipelines/ransac_tensor.py`) and the robust registration
   estimator (`estimate`) that the example exercises.  The estimator itself is
   not part of the example file, so it is modelled from its specification; the
   example-script glue (`visualize_registration`, `distance_threshold`, the
   per-correspondence-variant loop) is embedded from the source. -/

namespace RansacReg

/-- A 3D point or vector with exact rational coordinates (the model of the
spec's real-valued `Point`). -/
@[ext] structure Vec3 where
  x : ℚ
  y : ℚ
  z : ℚ
  deriving DecidableEq

def vzero : Vec3 := ⟨0, 0, 0⟩

def vadd (a b : Vec3) : Vec3 := ⟨a.x + b.x, a.y + b.y, a.z + b.z⟩

def vsub (a b : Vec3) : Vec3 := ⟨a.x - b.x, a.y - b.y, a.z - b.z⟩

def smul3 (q : ℚ) (a : Vec3) : Vec3 := ⟨q * a.x, q * a.y, q * a.z⟩

def dot (a b : Vec3) : ℚ := a.x * b.x + a.y * b.y + a.z * b.z

def cross (a b : Vec3) : Vec3 :=
  ⟨a.y * b.z - a.z * b.y, a.z * b.x - a.x * b.z, a.x * b.y - a.y * b.x⟩

/-- Squared Euclidean norm; all internal distance comparisons work with this
quantity (squared distances), per the spec's numeric semantics. -/
def normSq (a : Vec3) : ℚ := dot a a

/-- A 3×3 rational matrix, stored by columns. -/
@[ext] structure Mat3 where
  c1 : Vec3
  c2 : Vec3
  c3 : Vec3
  deriving DecidableEq

def mulVec (M : Mat3) (v : Vec3) : Vec3 :=
  vadd (vadd (smul3 v.x M.c1) (smul3 v.y M.c2)) (smul3 v.z M.c3)

def matMul (A B : Mat3) : Mat3 := ⟨mulVec A B.c1, mulVec A B.c2, mulVec A B.c3⟩

def transposeM (M : Mat3) : Mat3 :=
  ⟨⟨M.c1.x, M.c2.x, M.c3.x⟩, ⟨M.c1.y, M.c2.y, M.c3.y⟩, ⟨M.c1.z, M.c2.z, M.c3.z⟩⟩

def detM (M : Mat3) : ℚ := dot M.c1 (cross M.c2 M.c3)

/-- Adjugate-based inverse: the rows of the inverse are the cross products of
the remaining column pairs, divided by the determinant. -/
def matInv (M : Mat3) : Mat3 :=
  transposeM ⟨smul3 (1 / detM M) (cross M.c2 M.c3),
              smul3 (1 / detM M) (cross M.c3 M.c1),
              smul3 (1 / detM M) (cross M.c1 M.c2)⟩

def idM : Mat3 := ⟨⟨1, 0, 0⟩, ⟨0, 1, 0⟩, ⟨0, 0, 1⟩⟩

theorem mulVec_id (v : Vec3) : mulVec idM v = v := by
  ext <;> simp [mulVec, idM, vadd, smul3]

theorem matMul_matInv (M : Mat3) (h : detM M ≠ 0) : matMul M (matInv M) = idM := by
  obtain ⟨⟨a, b, c⟩, ⟨d, e, f⟩, ⟨g, hh, i⟩⟩ := M
  simp only [detM, dot, cross] at h
  ext <;>
    (simp only [matMul, matInv, transposeM, mulVec, vadd, smul3, detM, dot, cross, idM]
     field_simp
     ring)

/-- The spec's invariant on rotation blocks: `R` is orthonormal with
determinant `+1` (membership in SO(3)). -/
def IsRotationMat (M : Mat3) : Prop := matMul (transposeM M) M = idM ∧ detM M = 1

instance (M : Mat3) : Decidable (IsRotationMat M) :=
  inferInstanceAs (Decidable (_ ∧ _))

/-- A rigid transformation: rotation block plus translation (the model of the
spec's 4×4 homogeneous `Transformation`). -/
@[ext] structure RigidTransform where
  R : Mat3
  t : Vec3
  deriving DecidableEq

def applyT (T : RigidTransform) (p : Vec3) : Vec3 := vadd (mulVec T.R p) T.t

def idTransform : RigidTransform := ⟨idM, vzero⟩

theorem isRotationMat_id : IsRotationMat idM := by
  constructor
  · ext <;> norm_num [matMul, transposeM, mulVec, idM, vadd, smul3]
  · norm_num [detM, idM, dot, cross]

theorem applyT_id (p : Vec3) : applyT idTransform p = p := by
  simp [applyT, idTransform, mulVec_id, vadd, vzero]

def sumV (p1 p2 p3 : Vec3) : Vec3 := vadd (vadd p1 p2) p3

/-- Matrix whose columns are the two scaled centered edge vectors of a sample
triple together with their cross product.  Scaling the centered vectors by 3
(i.e. using `3p - (p1+p2+p3)`) keeps the entries polynomial in the inputs; the
scale factors cancel between source and target in `solveRigid`. -/
def baseMat (p1 p2 p3 : Vec3) : Mat3 :=
  let s := sumV p1 p2 p3
  let u1 := vsub (smul3 3 p1) s
  let u2 := vsub (smul3 3 p2) s
  ⟨u1, u2, cross u1 u2⟩

def centroid (p1 p2 p3 : Vec3) : Vec3 := smul3 (1 / 3) (sumV p1 p2 p3)

/-- Modelled from the spec: the closed-form rigid alignment of a minimal
sample (spec step 2b), whose SVD-based implementation is not part of the
repository's example file.  A degenerate (collinear or duplicate) sample is
rejected (`none`).  Otherwise the unique linear map sending the centered
source frame (two centered points and their cross product) to the centered
target frame is computed; exactly when the sample admits an exact rigid
alignment this map is its rotation block, which the model checks directly
(`IsRotationMat`).  For samples with no exact rigid fit the model falls back
to the least-squares translation-only alignment (identity rotation, centroid
difference), a rigid transform; the SVD rotation fit for noisy samples is not
reproducible over exact rationals. -/
def solveRigid (ps : List (Vec3 × Vec3)) : Option RigidTransform :=
  match ps with
  | [(p1, q1), (p2, q2), (p3, q3)] =>
    let B := baseMat p1 p2 p3
    if detM B = 0 then none
    else
      let C := baseMat q1 q2 q3
      let M := matMul C (matInv B)
      let cp := centroid p1 p2 p3
      let cq := centroid q1 q2 q3
      if IsRotationMat M then some ⟨M, vsub cq (mulVec M cp)⟩
      else some ⟨idM, vsub cq cp⟩
  | _ => none

theorem solveRigid_isRotation {ps : List (Vec3 × Vec3)} {T : RigidTransform}
    (h : solveRigid ps = some T) : IsRotationMat T.R := by
  match ps, h with
  | [(p1, q1), (p2, q2), (p3, q3)], h => ?_
  unfold solveRigid at h
  by_cases hB : detM (baseMat p1 p2 p3) = 0
  · simp [hB] at h
  · simp only [hB, if_false] at h
    by_cases hR : IsRotationMat (matMul (baseMat q1 q2 q3) (matInv (baseMat p1 p2 p3)))
    · rw [if_pos hR] at h
      cases h
      exact hR
    · rw [if_neg hR] at h
      cases h
      exact isRotationMat_id

theorem solveRigid_same (p1 p2 p3 : Vec3) (h : detM (baseMat p1 p2 p3) ≠ 0) :
    solveRigid [(p1, p1), (p2, p2), (p3, p3)] = some idTransform := by
  show (if detM (baseMat p1 p2 p3) = 0 then none
    else
      let C := baseMat p1 p2 p3
      let M := matMul C (matInv (baseMat p1 p2 p3))
      let cp := centroid p1 p2 p3
      let cq := centroid p1 p2 p3
      if IsRotationMat M then some ⟨M, vsub cq (mulVec M cp)⟩
      else some ⟨idM, vsub cq cp⟩) = some idTransform
  rw [if_neg h]
  simp only []
  rw [if_pos]
  · rw [matMul_matInv _ h, mulVec_id]
    simp only [idTransform]
    congr 1
    ext <;> simp [vsub, vzero]
  · rw [matMul_matInv _ h]
    exact isRotationMat_id

/-- Convergence criteria of the estimator, as constructed by the example
script: `RANSACConvergenceCriteria(args.max_iterations, args.confidence)`. -/
structure RANSACConvergenceCriteria where
  max_iterations : ℤ
  confidence : ℚ
  deriving DecidableEq

/-- Modelled from the spec: the `Result` returned by `estimate` — best
transform, its inlier count, fitness, and the inlier RMSE.  The RMSE is kept
as its square (`inlier_rmse_sq`), which is exact over ℚ; the RMSE itself is
its square root. -/
structure RegistrationResult where
  transformation : RigidTransform
  inlier_count : ℕ
  fitness : ℚ
  inlier_rmse_sq : ℚ
  deriving DecidableEq

/-- Modelled from the spec's error kinds (§7); `Cancelled` is omitted since
the model has no concurrency. -/
inductive RegError where
  | invalidArgument : RegError
  | noValidModel : RegError
  deriving DecidableEq

/-- Modelled from the spec: minimal sample size (3 correspondences). -/
def sampleSize : ℕ := 3

def residualSq (T : RigidTransform) (src dst : List Vec3) (c : ℕ × ℕ) : ℚ :=
  normSq (vsub (applyT T (src.getD c.1 vzero)) (dst.getD c.2 vzero))

/-- Modelled from the spec: a correspondence counts as an inlier when the
transformed source point is within `maxDist` of the target point; internally
the comparison is `squared distance ≤ maxDist²`. -/
def isInlier (T : RigidTransform) (src dst : List Vec3) (maxDist : ℚ) (c : ℕ × ℕ) : Bool :=
  decide (residualSq T src dst c ≤ maxDist ^ 2)

def countInliers (T : RigidTransform) (src dst : List Vec3) (corres : List (ℕ × ℕ))
    (maxDist : ℚ) : ℕ :=
  corres.countP (fun c => isInlier T src dst maxDist c)

def sumInlierSq (T : RigidTransform) (src dst : List Vec3) (corres : List (ℕ × ℕ))
    (maxDist : ℚ) : ℚ :=
  ((corres.filter (fun c => isInlier T src dst maxDist c)).map
    (fun c => residualSq T src dst c)).sum

/-- Modelled from the spec: draw a minimal sample of 3 distinct indices into
the correspondence list, uniformly without replacement, from three raw
pseudo-random values (each later index skips the earlier choices).  `none`
when fewer than 3 correspondences exist. -/
def sampleIdx0 (n r0 : ℕ) : ℕ := r0 % n

/-- Second sampled index: drawn from the `n-1` indices remaining after the
first choice (skipping over it). -/
def sampleIdx1 (n r0 r1 : ℕ) : ℕ :=
  if r1 % (n - 1) < sampleIdx0 n r0 then r1 % (n - 1) else r1 % (n - 1) + 1

/-- Third sampled index: drawn from the `n-2` indices remaining after the
first two choices (skipping over both). -/
def sampleIdx2 (n r0 r1 r2 : ℕ) : ℕ :=
  let a := min (sampleIdx0 n r0) (sampleIdx1 n r0 r1)
  let b := max (sampleIdx0 n r0) (sampleIdx1 n r0 r1)
  if r2 % (n - 2) < a then r2 % (n - 2)
  else if r2 % (n - 2) + 1 < b then r2 % (n - 2) + 1
  else r2 % (n - 2) + 2

def drawSample (n r0 r1 r2 : ℕ) : Option (ℕ × ℕ × ℕ) :=
  if n < 3 then none
  else some (sampleIdx0 n r0, sampleIdx1 n r0 r1, sampleIdx2 n r0 r1 r2)

theorem drawSample_spec (n r0 r1 r2 : ℕ) (hn : 3 ≤ n) :
    drawSample n r0 r1 r2 =
      some (sampleIdx0 n r0, sampleIdx1 n r0 r1, sampleIdx2 n r0 r1 r2) ∧
      sampleIdx0 n r0 < n ∧ sampleIdx1 n r0 r1 < n ∧ sampleIdx2 n r0 r1 r2 < n ∧
      sampleIdx0 n r0 ≠ sampleIdx1 n r0 r1 ∧ sampleIdx0 n r0 ≠ sampleIdx2 n r0 r1 r2 ∧
      sampleIdx1 n r0 r1 ≠ sampleIdx2 n r0 r1 r2 := by
  have h0 : r0 % n < n := Nat.mod_lt _ (by omega)
  have h1 : r1 % (n - 1) < n - 1 := Nat.mod_lt _ (by omega)
  have h2 : r2 % (n - 2) < n - 2 := Nat.mod_lt _ (by omega)
  have key : ∀ a b j2 : ℕ, a < b → b < n → j2 < n - 2 →
      ((if j2 < a then j2 else if j2 + 1 < b then j2 + 1 else j2 + 2) < n ∧
        (if j2 < a then j2 else if j2 + 1 < b then j2 + 1 else j2 + 2) ≠ a ∧
        (if j2 < a then j2 else if j2 + 1 < b then j2 + 1 else j2 + 2) ≠ b) := by
    intro a b j2 hab hbn hj2
    split_ifs <;> omega
  have hi1 : sampleIdx1 n r0 r1 < n := by
    unfold sampleIdx1 sampleIdx0
    split_ifs <;> omega
  have hne01 : sampleIdx0 n r0 ≠ sampleIdx1 n r0 r1 := by
    unfold sampleIdx1 sampleIdx0
    split_ifs <;> omega
  have hi0 : sampleIdx0 n r0 < n := h0
  have hab : min (sampleIdx0 n r0) (sampleIdx1 n r0 r1) <
      max (sampleIdx0 n r0) (sampleIdx1 n r0 r1) := by omega
  have hkey := key (min (sampleIdx0 n r0) (sampleIdx1 n r0 r1))
    (max (sampleIdx0 n r0) (sampleIdx1 n r0 r1)) (r2 % (n - 2)) hab (by omega) h2
  have hs2 : sampleIdx2 n r0 r1 r2 =
      (if r2 % (n - 2) < min (sampleIdx0 n r0) (sampleIdx1 n r0 r1) then r2 % (n - 2)
        else if r2 % (n - 2) + 1 < max (sampleIdx0 n r0) (sampleIdx1 n r0 r1) then
          r2 % (n - 2) + 1
        else r2 % (n - 2) + 2) := rfl
  rw [hs2] at *
  refine ⟨by unfold drawSample; rw [if_neg (by omega)]; exact rfl, hi0, hi1, ?_, hne01, ?_, ?_⟩ <;>
    omega

/-- State carried through the RANSAC iteration loop.  `trace` records every
candidate transform produced from a (non-degenerate) minimal sample, and
`foundValid` whether any such candidate was ever produced. -/
structure LoopState where
  best : RigidTransform
  bestCount : ℕ
  trace : List RigidTransform
  foundValid : Bool
  deriving DecidableEq

def initState : LoopState := ⟨idTransform, 0, [], false⟩

/-- Modelled from the spec (step 2d): when a candidate's inlier count exceeds
the best so far, the best transform and best inlier count are replaced. -/
def updateBest (st : LoopState) (T : RigidTransform) (cnt : ℕ) : LoopState :=
  if st.bestCount < cnt then
    { best := T, bestCount := cnt, trace := st.trace ++ [T], foundValid := true }
  else
    { st with trace := st.trace ++ [T], foundValid := true }

/-- Modelled from the spec (step 2): the loop continues at iteration `it`
while `it` is below both `max_iterations` and the adaptive bound
`k = log(1-confidence)/log(1-w^s)`; over the rationals the comparison
`it < k` is expressed equivalently (for the non-degenerate inlier ratios) as
`(1-w^s)^it > 1-confidence`. -/
def GuardHolds (crit : RANSACConvergenceCriteria) (n bestCount it : ℕ) : Prop :=
  (it : ℤ) < crit.max_iterations ∧
    1 - crit.confidence < (1 - ((bestCount : ℚ) / (n : ℚ)) ^ sampleSize) ^ it

instance (crit : RANSACConvergenceCriteria) (n bestCount it : ℕ) :
    Decidable (GuardHolds crit n bestCount it) :=
  inferInstanceAs (Decidable (_ ∧ _))

def samplePoints (src dst : List Vec3) (corres : List (ℕ × ℕ)) (i : ℕ) : Vec3 × Vec3 :=
  let c := corres.getD i (0, 0)
  (src.getD c.1 vzero, dst.getD c.2 vzero)

/-- Solve and score one drawn sample: a degenerate sample is silently
discarded, otherwise the candidate is scored and compared with the best. -/
def ransacScore (src dst : List Vec3) (corres : List (ℕ × ℕ)) (maxDist : ℚ)
    (st : LoopState) (i0 i1 i2 : ℕ) : LoopState :=
  match solveRigid [samplePoints src dst corres i0, samplePoints src dst corres i1,
      samplePoints src dst corres i2] with
  | none => st
  | some T => updateBest st T (countInliers T src dst corres maxDist)

/-- Modelled from the spec (steps 2a–2d): one RANSAC iteration — draw a
minimal sample, solve for the candidate transform, and keep it when it beats
the best so far. -/
def ransacIter (src dst : List Vec3) (corres : List (ℕ × ℕ)) (maxDist : ℚ)
    (r : ℕ → ℕ) (it : ℕ) (st : LoopState) : LoopState :=
  match drawSample corres.length (r (3 * it)) (r (3 * it + 1)) (r (3 * it + 2)) with
  | none => st
  | some (i0, i1, i2) => ransacScore src dst corres maxDist st i0 i1 i2

/-- Modelled from the spec (step 2): the iteration loop, run with fuel
`max_iterations` and stopped early when the adaptive guard fails. -/
def ransacLoop (src dst : List Vec3) (corres : List (ℕ × ℕ)) (maxDist : ℚ)
    (crit : RANSACConvergenceCriteria) (r : ℕ → ℕ) :
    ℕ → ℕ → LoopState → LoopState
  | 0, _, st => st
  | fuel + 1, it, st =>
    if GuardHolds crit corres.length st.bestCount it then
      ransacLoop src dst corres maxDist crit r fuel (it + 1)
        (ransacIter src dst corres maxDist r it st)
    else st

/-- Modelled from the spec's preconditions on `estimate`: non-empty point
sets, in-range correspondence indices, positive distance threshold, positive
iteration budget, confidence strictly between 0 and 1. -/
def ValidArgs (src dst : List Vec3) (corres : List (ℕ × ℕ)) (maxDist : ℚ)
    (crit : RANSACConvergenceCriteria) : Prop :=
  src ≠ [] ∧ dst ≠ [] ∧ (∀ c ∈ corres, c.1 < src.length ∧ c.2 < dst.length) ∧
    0 < maxDist ∧ 0 < crit.max_iterations ∧ 0 < crit.confidence ∧ crit.confidence < 1

instance (src dst : List Vec3) (corres : List (ℕ × ℕ)) (maxDist : ℚ)
    (crit : RANSACConvergenceCriteria) :
    Decidable (ValidArgs src dst corres maxDist crit) :=
  inferInstanceAs (Decidable (_ ∧ _))

/-- Modelled from the spec: the robust registration estimator
`estimate(src, dst, correspondences, max_correspondence_distance, criteria)`
(the procedure behind `ransac_from_correspondences`, whose implementation is
not part of the repository's example file).  `r` is the pseudo-random stream
derived from the seed.  Precondition violations fail with `invalidArgument`;
if no valid (non-degenerate) sample is ever found the run fails with
`noValidModel`; otherwise the best transform is returned with its inlier
count, fitness = inlier_count / total, and the (squared) inlier RMSE.  The
spec's optional post-loop refinement (step 3) is not modelled. -/
def estimate (r : ℕ → ℕ) (src dst : List Vec3) (corres : List (ℕ × ℕ))
    (maxDist : ℚ) (crit : RANSACConvergenceCriteria) :
    Except RegError RegistrationResult :=
  if ValidArgs src dst corres maxDist crit then
    let st := ransacLoop src dst corres maxDist crit r crit.max_iterations.toNat 0 initState
    if st.foundValid then
      .ok { transformation := st.best
            inlier_count := st.bestCount
            fitness := (st.bestCount : ℚ) / (corres.length : ℚ)
            inlier_rmse_sq := sumInlierSq st.best src dst corres maxDist / (st.bestCount : ℚ) }
    else .error .noValidModel
  else .error .invalidArgument

theorem ransacLoop_zero (src dst : List Vec3) (corres : List (ℕ × ℕ)) (maxDist : ℚ)
    (crit : RANSACConvergenceCriteria) (r : ℕ → ℕ) (it : ℕ) (st : LoopState) :
    ransacLoop src dst corres maxDist crit r 0 it st = st := rfl

theorem ransacLoop_succ (src dst : List Vec3) (corres : List (ℕ × ℕ)) (maxDist : ℚ)
    (crit : RANSACConvergenceCriteria) (r : ℕ → ℕ) (fuel it : ℕ) (st : LoopState) :
    ransacLoop src dst corres maxDist crit r (fuel + 1) it st =
      if GuardHolds crit corres.length st.bestCount it then
        ransacLoop src dst corres maxDist crit r fuel (it + 1)
          (ransacIter src dst corres maxDist r it st)
      else st := rfl

theorem ransacLoop_stop (src dst : List Vec3) (corres : List (ℕ × ℕ)) (maxDist : ℚ)
    (crit : RANSACConvergenceCriteria) (r : ℕ → ℕ) (fuel it : ℕ) (st : LoopState)
    (h : ¬ GuardHolds crit corres.length st.bestCount it) :
    ransacLoop src dst corres maxDist crit r fuel it st = st := by
  cases fuel with
  | zero => rfl
  | succ fuel => rw [ransacLoop_succ, if_neg h]

theorem updateBest_trace_super (st : LoopState) (T : RigidTransform) (cnt : ℕ)
    (T0 : RigidTransform) (hT0 : T0 ∈ st.trace) : T0 ∈ (updateBest st T cnt).trace := by
  unfold updateBest
  split_ifs <;> simp only [List.mem_append] <;> exact Or.inl hT0

theorem updateBest_self_mem (st : LoopState) (T : RigidTransform) (cnt : ℕ) :
    T ∈ (updateBest st T cnt).trace := by
  unfold updateBest
  split_ifs <;> simp

theorem updateBest_of_le (st : LoopState) (T : RigidTransform) (cnt : ℕ)
    (h : ¬ st.bestCount < cnt) :
    (updateBest st T cnt).best = st.best ∧ (updateBest st T cnt).bestCount = st.bestCount := by
  unfold updateBest
  rw [if_neg h]
  exact ⟨rfl, rfl⟩

/-- One RANSAC iteration either leaves the state untouched (no sample or a
degenerate sample) or scores one candidate transform, produced by
`solveRigid` (hence with a rotation block in SO(3)), against the best. -/
theorem ransacIter_cases (src dst : List Vec3) (corres : List (ℕ × ℕ)) (maxDist : ℚ)
    (r : ℕ → ℕ) (it : ℕ) (st : LoopState) :
    ransacIter src dst corres maxDist r it st = st ∨
      ∃ T, IsRotationMat T.R ∧
        ransacIter src dst corres maxDist r it st =
          updateBest st T (countInliers T src dst corres maxDist) := by
  unfold ransacIter
  rcases drawSample corres.length (r (3 * it)) (r (3 * it + 1)) (r (3 * it + 2)) with
    _ | ⟨i0, i1, i2⟩
  · exact Or.inl rfl
  · show ransacScore src dst corres maxDist st i0 i1 i2 = st ∨
      ∃ T, IsRotationMat T.R ∧ ransacScore src dst corres maxDist st i0 i1 i2 =
        updateBest st T (countInliers T src dst corres maxDist)
    unfold ransacScore
    rcases hsol : solveRigid [samplePoints src dst corres i0, samplePoints src dst corres i1,
        samplePoints src dst corres i2] with _ | T
    · exact Or.inl rfl
    · exact Or.inr ⟨T, solveRigid_isRotation hsol, rfl⟩

theorem ransacIter_trace_mem (src dst : List Vec3) (corres : List (ℕ × ℕ)) (maxDist : ℚ)
    (r : ℕ → ℕ) (it : ℕ) (st : LoopState) (T : RigidTransform) (hT : T ∈ st.trace) :
    T ∈ (ransacIter src dst corres maxDist r it st).trace := by
  rcases ransacIter_cases src dst corres maxDist r it st with h | ⟨T', _, h⟩
  · rw [h]; exact hT
  · rw [h]; exact updateBest_trace_super st T' _ T hT

theorem ransacLoop_trace_mem (src dst : List Vec3) (corres : List (ℕ × ℕ)) (maxDist : ℚ)
    (crit : RANSACConvergenceCriteria) (r : ℕ → ℕ) (fuel : ℕ) :
    ∀ (it : ℕ) (st : LoopState) (T : RigidTransform), T ∈ st.trace →
      T ∈ (ransacLoop src dst corres maxDist crit r fuel it st).trace := by
  induction fuel with
  | zero => intro it st T hT; exact hT
  | succ fuel ih =>
    intro it st T hT
    rw [ransacLoop_succ]
    split_ifs with hg
    · exact ih _ _ _ (ransacIter_trace_mem src dst corres maxDist r it st T hT)
    · exact hT

/-- If every candidate recorded in the final trace has zero inliers, a run
started with `bestCount = 0` never updates the best transform. -/
theorem ransacLoop_best_stable (src dst : List Vec3) (corres : List (ℕ × ℕ)) (maxDist : ℚ)
    (crit : RANSACConvergenceCriteria) (r : ℕ → ℕ) (fuel : ℕ) :
    ∀ (it : ℕ) (st : LoopState), st.bestCount = 0 →
      (∀ T ∈ (ransacLoop src dst corres maxDist crit r fuel it st).trace,
        countInliers T src dst corres maxDist = 0) →
      (ransacLoop src dst corres maxDist crit r fuel it st).best = st.best ∧
        (ransacLoop src dst corres maxDist crit r fuel it st).bestCount = 0 := by
  induction fuel with
  | zero => intro it st h0 _; exact ⟨rfl, h0⟩
  | succ fuel ih =>
    intro it st h0 htr
    rw [ransacLoop_succ] at htr ⊢
    split_ifs with hg
    · rw [if_pos hg] at htr
      rcases ransacIter_cases src dst corres maxDist r it st with hit | ⟨T', _, hit⟩
      · rw [hit] at htr ⊢
        exact ih (it + 1) st h0 htr
      · have hcnt0 : countInliers T' src dst corres maxDist = 0 := by
          apply htr
          rw [hit]
          exact ransacLoop_trace_mem src dst corres maxDist crit r fuel (it + 1) _ T'
            (updateBest_self_mem st T' _)
        have hbest : (ransacIter src dst corres maxDist r it st).best = st.best ∧
            (ransacIter src dst corres maxDist r it st).bestCount = st.bestCount := by
          rw [hit]
          exact updateBest_of_le st T' _ (by omega)
        have := ih (it + 1) (ransacIter src dst corres maxDist r it st)
          (hbest.2.trans h0) htr
        exact ⟨this.1.trans hbest.1, this.2⟩
    · exact ⟨rfl, h0⟩

/-- Integer copy of `Vec3`; arithmetic on it kernel-reduces, which makes
finite statements about integer point sets decidable. -/
structure Vec3Z where
  x : ℤ
  y : ℤ
  z : ℤ
  deriving DecidableEq

def castVec (v : Vec3Z) : Vec3 := ⟨(v.x : ℚ), (v.y : ℚ), (v.z : ℚ)⟩

def vaddZ (a b : Vec3Z) : Vec3Z := ⟨a.x + b.x, a.y + b.y, a.z + b.z⟩

def vsubZ (a b : Vec3Z) : Vec3Z := ⟨a.x - b.x, a.y - b.y, a.z - b.z⟩

def smulZ (q : ℤ) (a : Vec3Z) : Vec3Z := ⟨q * a.x, q * a.y, q * a.z⟩

def dotZ (a b : Vec3Z) : ℤ := a.x * b.x + a.y * b.y + a.z * b.z

def crossZ (a b : Vec3Z) : Vec3Z :=
  ⟨a.y * b.z - a.z * b.y, a.z * b.x - a.x * b.z, a.x * b.y - a.y * b.x⟩

/-- Integer mirror of `detM (baseMat p1 p2 p3)`. -/
def detBZ (p1 p2 p3 : Vec3Z) : ℤ :=
  let s := vaddZ (vaddZ p1 p2) p3
  let u1 := vsubZ (smulZ 3 p1) s
  let u2 := vsubZ (smulZ 3 p2) s
  dotZ u1 (crossZ u2 (crossZ u1 u2))

theorem detM_baseMat_cast (p1 p2 p3 : Vec3Z) :
    detM (baseMat (castVec p1) (castVec p2) (castVec p3)) = ((detBZ p1 p2 p3 : ℤ) : ℚ) := by
  simp only [detM, baseMat, detBZ, sumV, castVec, vadd, vsub, smul3, dot, cross,
    vaddZ, vsubZ, smulZ, dotZ, crossZ]
  push_cast
  ring

/-- The 8 corners of the unit cube, as integer points. -/
def cubeZ : List Vec3Z :=
  [⟨0, 0, 0⟩, ⟨1, 0, 0⟩, ⟨0, 1, 0⟩, ⟨1, 1, 0⟩, ⟨0, 0, 1⟩, ⟨1, 0, 1⟩, ⟨0, 1, 1⟩, ⟨1, 1, 1⟩]

/-- The 8 corners of the unit cube (the concrete scenario of the spec's
testable properties). -/
def cubePts : List Vec3 :=
  [⟨0, 0, 0⟩, ⟨1, 0, 0⟩, ⟨0, 1, 0⟩, ⟨1, 1, 0⟩, ⟨0, 0, 1⟩, ⟨1, 0, 1⟩, ⟨0, 1, 1⟩, ⟨1, 1, 1⟩]

theorem cubePts_eq_map : cubePts = cubeZ.map castVec := by
  norm_num [cubePts, cubeZ, castVec]

/-- No three distinct corners of the cube are collinear: every sample matrix
built from them is invertible. -/
theorem cubeZ_nondegenerate : ∀ i j k : Fin 8, i ≠ j → i ≠ k → j ≠ k →
    detBZ (cubeZ.getD (i : ℕ) ⟨0, 0, 0⟩) (cubeZ.getD (j : ℕ) ⟨0, 0, 0⟩)
      (cubeZ.getD (k : ℕ) ⟨0, 0, 0⟩) ≠ 0 := by
  decide

theorem cube_baseMat_nondegenerate (i j k : ℕ) (hi : i < 8) (hj : j < 8) (hk : k < 8)
    (hij : i ≠ j) (hik : i ≠ k) (hjk : j ≠ k) :
    detM (baseMat (cubePts.getD i vzero) (cubePts.getD j vzero) (cubePts.getD k vzero)) ≠ 0 := by
  have hlen : cubeZ.length = 8 := rfl
  have hgd : ∀ m : ℕ, m < 8 → cubePts.getD m vzero = castVec (cubeZ.getD m ⟨0, 0, 0⟩) := by
    intro m hm
    rw [cubePts_eq_map, List.getD_eq_getElem?_getD, List.getD_eq_getElem?_getD,
      List.getElem?_map]
    have : cubeZ[m]? = some (cubeZ.getD m ⟨0, 0, 0⟩) := by
      rw [List.getD_eq_getElem?_getD, List.getElem?_eq_getElem (by omega)]
      simp
    rw [this]
    rfl
  rw [hgd i hi, hgd j hj, hgd k hk, detM_baseMat_cast]
  have := cubeZ_nondegenerate ⟨i, hi⟩ ⟨j, hj⟩ ⟨k, hk⟩
    (by simpa [Fin.ext_iff] using hij) (by simpa [Fin.ext_iff] using hik)
    (by simpa [Fin.ext_iff] using hjk)
  exact_mod_cast this

/-- Identity correspondences `(i, i)` over `n` points. -/
def idCorres (n : ℕ) : List (ℕ × ℕ) := (List.range n).map (fun i => (i, i))

theorem idCorres_getD (n i : ℕ) (h : i < n) : (idCorres n).getD i (0, 0) = (i, i) := by
  unfold idCorres
  rw [List.getD_eq_getElem _ _ (by simpa using h)]
  simp

theorem residualSq_id_self (ps : List Vec3) (i : ℕ) :
    residualSq idTransform ps ps (i, i) = 0 := by
  simp [residualSq, applyT_id, vsub, normSq, dot]

theorem countInliers_id_self (ps : List Vec3) (t : ℚ) :
    countInliers idTransform ps ps (idCorres ps.length) t = ps.length := by
  have hlen : (idCorres ps.length).length = ps.length := by simp [idCorres]
  rw [countInliers]
  conv_rhs => rw [← hlen]
  rw [List.countP_eq_length]
  intro c hc
  simp only [idCorres, List.mem_map, List.mem_range] at hc
  obtain ⟨i, _, rfl⟩ := hc
  simp [isInlier, residualSq_id_self, sq_nonneg]

theorem sumInlierSq_id_self (ps : List Vec3) (t : ℚ) :
    sumInlierSq idTransform ps ps (idCorres ps.length) t = 0 := by
  apply List.sum_eq_zero
  intro q hq
  simp only [sumInlierSq, List.mem_map, List.mem_filter] at hq
  obtain ⟨c, ⟨hc, _⟩, rfl⟩ := hq
  simp only [idCorres, List.mem_map, List.mem_range] at hc
  obtain ⟨i, _, rfl⟩ := hc
  exact residualSq_id_self ps i

theorem cubePts_length : cubePts.length = 8 := rfl

theorem idCorres_length (n : ℕ) : (idCorres n).length = n := by simp [idCorres]

theorem cube_samplePoints (m : ℕ) (hm : m < 8) :
    samplePoints cubePts cubePts (idCorres 8) m =
      (cubePts.getD m vzero, cubePts.getD m vzero) := by
  unfold samplePoints
  rw [idCorres_getD 8 m hm]

theorem cube_valid :
    ValidArgs cubePts cubePts (idCorres 8) (1 / 100) ⟨100, 99 / 100⟩ := by
  refine ⟨by simp [cubePts], by simp [cubePts], ?_, by norm_num, by norm_num, by norm_num,
    by norm_num⟩
  intro c hc
  simp only [idCorres, List.mem_map, List.mem_range] at hc
  obtain ⟨i, hi, rfl⟩ := hc
  rw [cubePts_length]
  exact ⟨hi, hi⟩

theorem cube_iter (r : ℕ → ℕ) :
    ransacIter cubePts cubePts (idCorres 8) (1 / 100) r 0 initState =
      ⟨idTransform, 8, [idTransform], true⟩ := by
  have hn : (idCorres 8).length = 8 := idCorres_length 8
  obtain ⟨hds, hb0, hb1, hb2, h01, h02, h12⟩ :=
    drawSample_spec (idCorres 8).length (r (3 * 0)) (r (3 * 0 + 1)) (r (3 * 0 + 2))
      (by rw [hn]; norm_num)
  have hb0' : sampleIdx0 (idCorres 8).length (r (3 * 0)) < 8 := by omega
  have hb1' : sampleIdx1 (idCorres 8).length (r (3 * 0)) (r (3 * 0 + 1)) < 8 := by omega
  have hb2' : sampleIdx2 (idCorres 8).length (r (3 * 0)) (r (3 * 0 + 1)) (r (3 * 0 + 2)) < 8 := by
    omega
  unfold ransacIter
  rw [hds]
  show ransacScore cubePts cubePts (idCorres 8) (1 / 100) initState _ _ _ = _
  unfold ransacScore
  rw [cube_samplePoints _ hb0', cube_samplePoints _ hb1', cube_samplePoints _ hb2',
    solveRigid_same _ _ _ (cube_baseMat_nondegenerate _ _ _ hb0' hb1' hb2' h01 h02 h12)]
  show updateBest initState idTransform
      (countInliers idTransform cubePts cubePts (idCorres 8) (1 / 100)) = _
  have hcnt : countInliers idTransform cubePts cubePts (idCorres 8) (1 / 100) = 8 := by
    have := countInliers_id_self cubePts (1 / 100)
    rw [cubePts_length] at this
    exact this
  rw [hcnt]
  unfold updateBest initState
  rw [if_pos (by norm_num)]
  rfl

theorem cube_guard0 :
    GuardHolds ⟨100, 99 / 100⟩ (idCorres 8).length initState.bestCount 0 := by
  constructor
  · norm_num
  · norm_num [initState, sampleSize]

theorem cube_guard1 :
    ¬ GuardHolds ⟨100, 99 / 100⟩ (idCorres 8).length
      (LoopState.bestCount ⟨idTransform, 8, [idTransform], true⟩) 1 := by
  intro h
  have h2 := h.2
  rw [idCorres_length 8] at h2
  norm_num [sampleSize] at h2

/-- The full cube run: for every pseudo-random stream, `estimate` on the
identity-paired cube corners returns the identity transform with 8 inliers,
fitness 1 and zero (squared) inlier RMSE. -/
theorem cube_run (r : ℕ → ℕ) :
    estimate r cubePts cubePts (idCorres 8) (1 / 100) ⟨100, 99 / 100⟩ =
      .ok { transformation := idTransform
            inlier_count := 8
            fitness := 1
            inlier_rmse_sq := 0 } := by
  have hloop : ransacLoop cubePts cubePts (idCorres 8) (1 / 100) ⟨100, 99 / 100⟩ r
      100 0 initState = ⟨idTransform, 8, [idTransform], true⟩ := by
    rw [show (100 : ℕ) = 99 + 1 from rfl, ransacLoop_succ, if_pos cube_guard0, cube_iter r,
      ransacLoop_stop _ _ _ _ _ _ _ _ _ cube_guard1]
  unfold estimate
  rw [if_pos cube_valid]
  simp only []
  rw [show ((⟨100, 99 / 100⟩ : RANSACConvergenceCriteria).max_iterations).toNat = 100
    from rfl, hloop]
  show Except.ok (RegistrationResult.mk idTransform 8 (((8 : ℕ) : ℚ) / ((idCorres 8).length : ℚ))
      (sumInlierSq idTransform cubePts cubePts (idCorres 8) (1 / 100) / ((8 : ℕ) : ℚ))) = _
  have hsum : sumInlierSq idTransform cubePts cubePts (idCorres 8) (1 / 100) = 0 := by
    have := sumInlierSq_id_self cubePts (1 / 100)
    rw [cubePts_length] at this
    exact this
  rw [hsum, idCorres_length 8]
  norm_num

/-- Claim C1: on the concrete scenario where source and target are the 8
corners of the unit cube, the correspondences are the identity pairing,
`max_correspondence_distance = 0.01` and the criteria are 100 iterations with
confidence 0.99, `estimate` — for every pseudo-random stream — returns the
identity transformation with inlier count 8, fitness 1, and zero inlier
RMSE. -/
theorem cube_identity_registration (r : ℕ → ℕ) :
    estimate r cubePts cubePts (idCorres 8) (1 / 100) ⟨100, 99 / 100⟩ =
      .ok { transformation := idTransform
            inlier_count := 8
            fitness := 1
            inlier_rmse_sq := 0 } :=
  cube_run r

/-- Claim C3: `estimate` fails with `invalidArgument` exactly when one of the
spec's preconditions is violated (empty point set, out-of-range index,
non-positive threshold, non-positive iteration budget, or confidence outside
the open unit interval); on such failure no result is produced. -/
theorem estimate_invalidArgument_iff (r : ℕ → ℕ) (src dst : List Vec3)
    (corres : List (ℕ × ℕ)) (maxDist : ℚ) (crit : RANSACConvergenceCriteria) :
    estimate r src dst corres maxDist crit = .error .invalidArgument ↔
      ¬ ValidArgs src dst corres maxDist crit := by
  unfold estimate
  by_cases h : ValidArgs src dst corres maxDist crit
  · rw [if_pos h]
    simp only []
    constructor
    · intro hcontra
      rcases hfv : (ransacLoop src dst corres maxDist crit r crit.max_iterations.toNat 0
          initState).foundValid with _ | _
      · rw [hfv] at hcontra
        simp at hcontra
      · rw [hfv] at hcontra
        simp at hcontra
    · intro hn
      exact absurd h hn
  · rw [if_neg h]
    simp [h]

/-- Claim C5: for a fixed transform, point sets and correspondences, the
inlier count is monotone in the distance threshold. -/
theorem countInliers_mono (T : RigidTransform) (src dst : List Vec3)
    (corres : List (ℕ × ℕ)) (t1 t2 : ℚ) (h0 : 0 < t1) (h12 : t1 ≤ t2) :
    countInliers T src dst corres t1 ≤ countInliers T src dst corres t2 := by
  apply List.countP_mono_left
  intro c _ hc
  simp only [isInlier, decide_eq_true_eq] at hc ⊢
  exact hc.trans (pow_le_pow_left₀ h0.le h12 2)

/-- Witness for C5 at concrete inputs. -/
theorem countInliers_mono_witness :
    0 < (1 : ℚ) ∧ (1 : ℚ) ≤ 2 ∧
      countInliers idTransform [vzero] [vzero] [(0, 0)] 1 ≤
        countInliers idTransform [vzero] [vzero] [(0, 0)] 2 :=
  ⟨by norm_num, by norm_num,
    countInliers_mono idTransform [vzero] [vzero] [(0, 0)] 1 2 (by norm_num) (by norm_num)⟩

/-- Claim C6: `estimate` is deterministic — equal pseudo-random streams and
equal inputs give identical results. -/
theorem estimate_deterministic (r1 r2 : ℕ → ℕ) (src1 src2 dst1 dst2 : List Vec3)
    (corres1 corres2 : List (ℕ × ℕ)) (t1 t2 : ℚ) (crit1 crit2 : RANSACConvergenceCriteria)
    (hr : r1 = r2) (hsrc : src1 = src2) (hdst : dst1 = dst2) (hcor : corres1 = corres2)
    (ht : t1 = t2) (hcrit : crit1 = crit2) :
    estimate r1 src1 dst1 corres1 t1 crit1 = estimate r2 src2 dst2 corres2 t2 crit2 := by
  subst hr hsrc hdst hcor ht hcrit
  rfl

/-- Witness for C6 at concrete inputs. -/
theorem estimate_deterministic_witness :
    estimate (fun _ => 0) [vzero] [vzero] [] 1 ⟨1, 1 / 2⟩ =
      estimate (fun _ => 0) [vzero] [vzero] [] 1 ⟨1, 1 / 2⟩ :=
  estimate_deterministic (fun _ => 0) (fun _ => 0) [vzero] [vzero] [vzero] [vzero]
    [] [] 1 1 ⟨1, 1 / 2⟩ ⟨1, 1 / 2⟩ rfl rfl rfl rfl rfl rfl

/-- The interface-level distance between two points, in true (non-squared)
units. -/
noncomputable def realDist (p q : Vec3) : ℝ := Real.sqrt ((normSq (vsub p q) : ℚ) : ℝ)

/-- Claim C7: the internal squared-distance inlier test agrees with the
interface-level test in true distance units — for a positive threshold `t`,
`dist² ≤ t²` holds iff `dist ≤ t`, so both produce the same inlier sets. -/
theorem isInlier_iff_realDist (T : RigidTransform) (src dst : List Vec3) (t : ℚ)
    (c : ℕ × ℕ) (h : 0 < t) :
    isInlier T src dst t c = true ↔
      realDist (applyT T (src.getD c.1 vzero)) (dst.getD c.2 vzero) ≤ (t : ℝ) := by
  unfold isInlier realDist residualSq
  rw [decide_eq_true_eq, Real.sqrt_le_iff]
  constructor
  · intro hq
    constructor
    · exact_mod_cast h.le
    · exact_mod_cast hq
  · rintro ⟨-, hx⟩
    exact_mod_cast hx

/-- Witness for C7 at concrete inputs. -/
theorem isInlier_iff_realDist_witness :
    0 < (1 : ℚ) ∧
      (isInlier idTransform [vzero] [vzero] 1 (0, 0) = true ↔
        realDist (applyT idTransform (List.getD [vzero] 0 vzero)) (List.getD [vzero] 0 vzero) ≤
          ((1 : ℚ) : ℝ)) :=
  ⟨by norm_num, isInlier_iff_realDist idTransform [vzero] [vzero] 1 (0, 0) (by norm_num)⟩

/-- Modelled from the spec: the adaptive iteration bound
`k = log(1-confidence)/log(1-w^s)` (with `w` the current inlier ratio and `s`
the sample size), clamped to `[0, max_iterations]`. -/
noncomputable def kBound (crit : RANSACConvergenceCriteria) (n bestCount : ℕ) : ℝ :=
  min (max (Real.log (1 - (crit.confidence : ℝ)) /
      Real.log (1 - ((bestCount : ℝ) / (n : ℝ)) ^ sampleSize)) 0)
    ((crit.max_iterations : ℝ))

/-- Claim C4: when an iteration's inlier count exceeds the best so far, the
best transform and best count are replaced; and (for a non-degenerate current
inlier ratio `0 < w < 1`) the loop's continuation guard at iteration `it`
holds exactly when `it` is below the clamped adaptive bound
`k = log(1-confidence)/log(1-w^s)` — i.e. the loop runs at most
`min(k, max_iterations)` iterations. -/
theorem updateBest_and_adaptive_guard (crit : RANSACConvergenceCriteria) (n b it : ℕ)
    (st : LoopState) (T : RigidTransform) (cnt : ℕ) (hcnt : st.bestCount < cnt)
    (hb0 : 0 < b) (hbn : b < n) (hc0 : 0 < crit.confidence) (hc1 : crit.confidence < 1) :
    ((updateBest st T cnt).best = T ∧ (updateBest st T cnt).bestCount = cnt) ∧
      (GuardHolds crit n b it ↔ (it : ℝ) < kBound crit n b) := by
  constructor
  · unfold updateBest
    rw [if_pos hcnt]
    exact ⟨rfl, rfl⟩
  · have hn0 : 0 < n := by omega
    have hw0 : (0 : ℝ) < (b : ℝ) / (n : ℝ) := by positivity
    have hw1 : (b : ℝ) / (n : ℝ) < 1 := by
      rw [div_lt_one (by positivity)]
      exact_mod_cast hbn
    have hws1 : ((b : ℝ) / (n : ℝ)) ^ sampleSize < 1 :=
      pow_lt_one₀ hw0.le hw1 (by norm_num [sampleSize])
    have hws0 : 0 < ((b : ℝ) / (n : ℝ)) ^ sampleSize := pow_pos hw0 _
    have ha0 : (0 : ℝ) < 1 - ((b : ℝ) / (n : ℝ)) ^ sampleSize := by linarith
    have ha1 : 1 - ((b : ℝ) / (n : ℝ)) ^ sampleSize < 1 := by linarith
    have hloga : Real.log (1 - ((b : ℝ) / (n : ℝ)) ^ sampleSize) < 0 := Real.log_neg ha0 ha1
    have hc0R : (0 : ℝ) < 1 - (crit.confidence : ℝ) := by
      have : (crit.confidence : ℝ) < 1 := by exact_mod_cast hc1
      linarith
    have hc1R : 1 - (crit.confidence : ℝ) < 1 := by
      have : (0 : ℝ) < (crit.confidence : ℝ) := by exact_mod_cast hc0
      linarith
    have hlogc : Real.log (1 - (crit.confidence : ℝ)) < 0 := Real.log_neg hc0R hc1R
    have hraw0 : 0 ≤ Real.log (1 - (crit.confidence : ℝ)) /
        Real.log (1 - ((b : ℝ) / (n : ℝ)) ^ sampleSize) := by
      have : 0 < Real.log (1 - (crit.confidence : ℝ)) /
          Real.log (1 - ((b : ℝ) / (n : ℝ)) ^ sampleSize) :=
        div_pos_of_neg_of_neg hlogc hloga
      exact this.le
    have hiff1 : ((it : ℤ) < crit.max_iterations) ↔
        ((it : ℝ) < (crit.max_iterations : ℝ)) := by
      constructor
      · intro hlt
        exact_mod_cast hlt
      · intro hlt
        exact_mod_cast hlt
    have hQR : (1 - crit.confidence < (1 - ((b : ℚ) / (n : ℚ)) ^ sampleSize) ^ it) ↔
        (1 - (crit.confidence : ℝ) < (1 - ((b : ℝ) / (n : ℝ)) ^ sampleSize) ^ it) := by
      rw [show (1 - (crit.confidence : ℝ)) = ((1 - crit.confidence : ℚ) : ℝ) by
          push_cast; ring,
        show (1 - ((b : ℝ) / (n : ℝ)) ^ sampleSize : ℝ) =
            ((1 - ((b : ℚ) / (n : ℚ)) ^ sampleSize : ℚ) : ℝ) by push_cast; ring,
        ← Rat.cast_pow, Rat.cast_lt]
    have hiff2 : (1 - (crit.confidence : ℝ) <
        (1 - ((b : ℝ) / (n : ℝ)) ^ sampleSize) ^ it) ↔
        ((it : ℝ) < Real.log (1 - (crit.confidence : ℝ)) /
          Real.log (1 - ((b : ℝ) / (n : ℝ)) ^ sampleSize)) := by
      rw [← Real.log_lt_log_iff hc0R (pow_pos ha0 it), Real.log_pow,
        lt_div_iff_of_neg hloga]
    unfold GuardHolds kBound
    rw [lt_min_iff, max_eq_left hraw0, hiff1, hQR, hiff2, and_comm]

/-- Witness for C4 at concrete inputs. -/
theorem updateBest_and_adaptive_guard_witness :
    (initState.bestCount < 1 ∧ 0 < 1 ∧ 1 < 2 ∧
      0 < (⟨10, 1 / 2⟩ : RANSACConvergenceCriteria).confidence ∧
      (⟨10, 1 / 2⟩ : RANSACConvergenceCriteria).confidence < 1) ∧
    (((updateBest initState idTransform 1).best = idTransform ∧
        (updateBest initState idTransform 1).bestCount = 1) ∧
      (GuardHolds ⟨10, 1 / 2⟩ 2 1 0 ↔ (0 : ℝ) < kBound ⟨10, 1 / 2⟩ 2 1)) := by
  refine ⟨⟨by norm_num [initState], by norm_num, by norm_num, by norm_num, by norm_num⟩, ?_⟩
  have h := updateBest_and_adaptive_guard ⟨10, 1 / 2⟩ 2 1 0 initState idTransform 1
    (by norm_num [initState]) (by norm_num) (by norm_num) (by norm_num) (by norm_num)
  have h2 := h.2
  exact ⟨h.1, by exact_mod_cast h2⟩

/-- Claim C2 (amended): on a valid input where the run produces at least one
candidate (some non-degenerate sample is found) and every produced candidate
scores zero inliers, `estimate` does not fail: it returns the identity
transform with inlier count 0, fitness 0 and zero inlier RMSE. -/
theorem estimate_zero_inliers (r : ℕ → ℕ) (src dst : List Vec3) (corres : List (ℕ × ℕ))
    (maxDist : ℚ) (crit : RANSACConvergenceCriteria)
    (hv : ValidArgs src dst corres maxDist crit)
    (hfv : (ransacLoop src dst corres maxDist crit r crit.max_iterations.toNat 0
      initState).foundValid = true)
    (htr : ∀ T ∈ (ransacLoop src dst corres maxDist crit r crit.max_iterations.toNat 0
      initState).trace, countInliers T src dst corres maxDist = 0) :
    estimate r src dst corres maxDist crit =
      .ok { transformation := idTransform
            inlier_count := 0
            fitness := 0
            inlier_rmse_sq := 0 } := by
  have hstable := ransacLoop_best_stable src dst corres maxDist crit r
    crit.max_iterations.toNat 0 initState rfl htr
  unfold estimate
  rw [if_pos hv]
  simp only []
  rw [hfv, if_pos rfl, hstable.1, hstable.2]
  show Except.ok (RegistrationResult.mk idTransform (((0 : ℕ))) (((0 : ℕ) : ℚ) / _)
    (sumInlierSq _ src dst corres maxDist / ((0 : ℕ) : ℚ))) = _
  norm_num

/-- Claim C2 as stated is false: the all-duplicate input below satisfies every
precondition and admits no transform with a positive inlier count (the
correspondence list is empty), yet `estimate` raises `noValidModel` instead of
returning the identity result, because no valid sample is ever found. -/
theorem estimate_noValidModel_cex :
    ValidArgs [vzero] [vzero] [] 1 ⟨1, 1 / 2⟩ ∧
      (∀ T : RigidTransform, countInliers T [vzero] [vzero] [] 1 = 0) ∧
      estimate (fun _ => 0) [vzero] [vzero] [] 1 ⟨1, 1 / 2⟩ = .error .noValidModel := by
  have hv : ValidArgs [vzero] [vzero] [] 1 ⟨1, 1 / 2⟩ := by
    refine ⟨by simp, by simp, by simp, by norm_num, by norm_num, by norm_num, by norm_num⟩
  refine ⟨hv, fun T => rfl, ?_⟩
  have hg : GuardHolds ⟨1, 1 / 2⟩ ([] : List (ℕ × ℕ)).length initState.bestCount 0 := by
    constructor
    · norm_num
    · norm_num [sampleSize]
  have hds : drawSample ([] : List (ℕ × ℕ)).length 0 0 0 = none := by
    unfold drawSample
    rw [if_pos (by norm_num)]
  have hiter : ransacIter [vzero] [vzero] [] 1 (fun _ => 0) 0 initState = initState := by
    unfold ransacIter
    rw [hds]
  have hloop : ransacLoop [vzero] [vzero] [] 1 ⟨1, 1 / 2⟩ (fun _ => 0) 1 0 initState =
      initState := by
    rw [show (1 : ℕ) = 0 + 1 from rfl, ransacLoop_succ, if_pos hg, hiter, ransacLoop_zero]
  unfold estimate
  rw [if_pos hv]
  simp only []
  rw [show ((⟨1, 1 / 2⟩ : RANSACConvergenceCriteria).max_iterations).toNat = 1 from rfl,
    hloop]
  rfl

/-- Every candidate transform recorded in the trace of a RANSAC run started
from the initial state has a rotation block in SO(3), and so do the initial
best transform and the final best. -/
theorem ransacLoop_rotation_inv (src dst : List Vec3) (corres : List (ℕ × ℕ))
    (maxDist : ℚ) (crit : RANSACConvergenceCriteria) (r : ℕ → ℕ) (fuel : ℕ) :
    ∀ (it : ℕ) (st : LoopState), IsRotationMat st.best.R →
      (∀ T ∈ st.trace, IsRotationMat T.R) →
      IsRotationMat (ransacLoop src dst corres maxDist crit r fuel it st).best.R ∧
        ∀ T ∈ (ransacLoop src dst corres maxDist crit r fuel it st).trace,
          IsRotationMat T.R := by
  induction fuel with
  | zero => intro it st hb ht; exact ⟨hb, ht⟩
  | succ fuel ih =>
    intro it st hb ht
    rw [ransacLoop_succ]
    split_ifs with hg
    · rcases ransacIter_cases src dst corres maxDist r it st with hit | ⟨T', hrot, hit⟩
      · rw [hit]
        exact ih (it + 1) st hb ht
      · rw [hit]
        apply ih (it + 1)
        · unfold updateBest
          split_ifs
          · exact hrot
          · exact hb
        · intro T hT
          unfold updateBest at hT
          split_ifs at hT <;>
            simp only [List.mem_append, List.mem_singleton] at hT <;>
            rcases hT with hT | rfl
          · exact ht T hT
          · exact hrot
          · exact ht T hT
          · exact hrot
    · exact ⟨hb, ht⟩

/-- Claim C8: every transformation produced by the estimator has a rotation
block in SO(3) — the identity it starts from, every candidate computed from a
minimal sample by `solveRigid`, the best transform kept by the loop, and the
transformation of every returned result. -/
theorem produced_transforms_SO3 :
    IsRotationMat idTransform.R ∧
      (∀ (ps : List (Vec3 × Vec3)) (T : RigidTransform), solveRigid ps = some T →
        IsRotationMat T.R) ∧
      (∀ (r : ℕ → ℕ) (src dst : List Vec3) (corres : List (ℕ × ℕ)) (maxDist : ℚ)
        (crit : RANSACConvergenceCriteria) (fuel it : ℕ),
        IsRotationMat (ransacLoop src dst corres maxDist crit r fuel it initState).best.R ∧
          ∀ T ∈ (ransacLoop src dst corres maxDist crit r fuel it initState).trace,
            IsRotationMat T.R) ∧
      (∀ (r : ℕ → ℕ) (src dst : List Vec3) (corres : List (ℕ × ℕ)) (maxDist : ℚ)
        (crit : RANSACConvergenceCriteria) (res : RegistrationResult),
        estimate r src dst corres maxDist crit = .ok res →
          IsRotationMat res.transformation.R) := by
  refine ⟨isRotationMat_id, fun ps T h => solveRigid_isRotation h, ?_, ?_⟩
  · intro r src dst corres maxDist crit fuel it
    exact ransacLoop_rotation_inv src dst corres maxDist crit r fuel it initState
      isRotationMat_id (by intro T hT; simp [initState] at hT)
  · intro r src dst corres maxDist crit res h
    unfold estimate at h
    by_cases hv : ValidArgs src dst corres maxDist crit
    · rw [if_pos hv] at h
      simp only [] at h
      rcases hfv : (ransacLoop src dst corres maxDist crit r crit.max_iterations.toNat 0
          initState).foundValid with _ | _
      · rw [hfv] at h
        simp at h
      · rw [hfv, if_pos rfl] at h
        have hres := Except.ok.inj h
        have : res.transformation = (ransacLoop src dst corres maxDist crit r
            crit.max_iterations.toNat 0 initState).best := by
          rw [← hres]
        rw [this]
        exact (ransacLoop_rotation_inv src dst corres maxDist crit r _ 0 initState
          isRotationMat_id (by intro T hT; simp [initState] at hT)).1
    · rw [if_neg hv] at h
      simp at h

/-- Witness for C8: a concrete successful run (the cube scenario) whose
returned transformation the theorem certifies to be in SO(3). -/
theorem produced_transforms_SO3_witness :
    estimate (fun _ => 0) cubePts cubePts (idCorres 8) (1 / 100) ⟨100, 99 / 100⟩ =
      .ok { transformation := idTransform
            inlier_count := 8
            fitness := 1
            inlier_rmse_sq := 0 } ∧
    IsRotationMat (RegistrationResult.mk idTransform 8 1 0).transformation.R :=
  ⟨cube_run (fun _ => 0),
    produced_transforms_SO3.2.2.2 (fun _ => 0) cubePts cubePts (idCorres 8) (1 / 100)
      ⟨100, 99 / 100⟩ _ (cube_run (fun _ => 0))⟩

/-- A small source triangle used to exercise the zero-inlier path. -/
def triSrc : List Vec3 := [⟨0, 0, 0⟩, ⟨1, 0, 0⟩, ⟨0, 1, 0⟩]

/-- A target triangle scaled by 2: no rigid transform fits the samples, so the
solver falls back to the translation-only alignment, which misses every
correspondence at threshold 0.01. -/
def triDst : List Vec3 := [⟨0, 0, 0⟩, ⟨2, 0, 0⟩, ⟨0, 2, 0⟩]

/-- The candidate the solver produces on the triangle data: identity rotation
with the centroid-difference translation. -/
def triT : RigidTransform := ⟨idM, ⟨1 / 3, 1 / 3, 0⟩⟩

theorem tri_draw : drawSample (idCorres 3).length 0 0 0 = some (0, 1, 2) := by decide

theorem tri_sample0 : samplePoints triSrc triDst (idCorres 3) 0 = (⟨0, 0, 0⟩, ⟨0, 0, 0⟩) := by
  unfold samplePoints
  rw [idCorres_getD 3 0 (by norm_num)]
  simp [triSrc, triDst]

theorem tri_sample1 : samplePoints triSrc triDst (idCorres 3) 1 = (⟨1, 0, 0⟩, ⟨2, 0, 0⟩) := by
  unfold samplePoints
  rw [idCorres_getD 3 1 (by norm_num)]
  simp [triSrc, triDst]

theorem tri_sample2 : samplePoints triSrc triDst (idCorres 3) 2 = (⟨0, 1, 0⟩, ⟨0, 2, 0⟩) := by
  unfold samplePoints
  rw [idCorres_getD 3 2 (by norm_num)]
  simp [triSrc, triDst]

theorem tri_solve :
    solveRigid [(⟨0, 0, 0⟩, ⟨0, 0, 0⟩), (⟨1, 0, 0⟩, ⟨2, 0, 0⟩), (⟨0, 1, 0⟩, ⟨0, 2, 0⟩)] =
      some triT := by
  show (if detM (baseMat ⟨0, 0, 0⟩ ⟨1, 0, 0⟩ ⟨0, 1, 0⟩) = 0 then none
    else
      let C := baseMat ⟨0, 0, 0⟩ ⟨2, 0, 0⟩ ⟨0, 2, 0⟩
      let M := matMul C (matInv (baseMat ⟨0, 0, 0⟩ ⟨1, 0, 0⟩ ⟨0, 1, 0⟩))
      let cp := centroid ⟨0, 0, 0⟩ ⟨1, 0, 0⟩ ⟨0, 1, 0⟩
      let cq := centroid ⟨0, 0, 0⟩ ⟨2, 0, 0⟩ ⟨0, 2, 0⟩
      if IsRotationMat M then some ⟨M, vsub cq (mulVec M cp)⟩
      else some ⟨idM, vsub cq cp⟩) = some triT
  rw [if_neg (by norm_num [detM, baseMat, sumV, vadd, vsub, smul3, dot, cross])]
  simp only []
  rw [if_neg]
  · show some (RigidTransform.mk idM _) = some triT
    unfold triT
    congr 1
    ext <;> norm_num [centroid, sumV, vadd, vsub, smul3]
  · intro hR
    have hdet := hR.2
    norm_num [detM, matMul, matInv, transposeM, mulVec, baseMat, sumV, vadd, vsub,
      smul3, dot, cross] at hdet

theorem tri_resid0 : residualSq triT triSrc triDst (0, 0) = 2 / 9 := by
  unfold residualSq
  rw [show triSrc.getD 0 vzero = ⟨0, 0, 0⟩ from rfl,
    show triDst.getD 0 vzero = ⟨0, 0, 0⟩ from rfl]
  norm_num [applyT, triT, mulVec, idM, vadd, smul3, vsub, normSq, dot]

theorem tri_resid1 : residualSq triT triSrc triDst (1, 1) = 5 / 9 := by
  unfold residualSq
  rw [show triSrc.getD 1 vzero = ⟨1, 0, 0⟩ from rfl,
    show triDst.getD 1 vzero = ⟨2, 0, 0⟩ from rfl]
  norm_num [applyT, triT, mulVec, idM, vadd, smul3, vsub, normSq, dot]

theorem tri_resid2 : residualSq triT triSrc triDst (2, 2) = 5 / 9 := by
  unfold residualSq
  rw [show triSrc.getD 2 vzero = ⟨0, 1, 0⟩ from rfl,
    show triDst.getD 2 vzero = ⟨0, 2, 0⟩ from rfl]
  norm_num [applyT, triT, mulVec, idM, vadd, smul3, vsub, normSq, dot]

theorem tri_count : countInliers triT triSrc triDst (idCorres 3) (1 / 100) = 0 := by
  rw [show idCorres 3 = [(0, 0), (1, 1), (2, 2)] from rfl]
  unfold countInliers
  simp only [List.countP_cons, List.countP_nil, isInlier, tri_resid0, tri_resid1, tri_resid2]
  norm_num

theorem tri_iter (it : ℕ) (st : LoopState) :
    ransacIter triSrc triDst (idCorres 3) (1 / 100) (fun _ => 0) it st =
      updateBest st triT 0 := by
  unfold ransacIter
  simp only []
  rw [tri_draw]
  show ransacScore triSrc triDst (idCorres 3) (1 / 100) st 0 1 2 = _
  unfold ransacScore
  rw [tri_sample0, tri_sample1, tri_sample2, tri_solve]
  show updateBest st triT (countInliers triT triSrc triDst (idCorres 3) (1 / 100)) = _
  rw [tri_count]

theorem tri_loop :
    ransacLoop triSrc triDst (idCorres 3) (1 / 100) ⟨2, 1 / 2⟩ (fun _ => 0) 2 0 initState =
      ⟨idTransform, 0, [triT, triT], true⟩ := by
  have hg0 : GuardHolds ⟨2, 1 / 2⟩ (idCorres 3).length initState.bestCount 0 := by
    constructor
    · norm_num
    · norm_num [initState, sampleSize]
  have hst1 : updateBest initState triT 0 =
      LoopState.mk idTransform 0 [triT] true := by
    unfold updateBest initState
    rw [if_neg (by norm_num)]
    rfl
  have hg1 : GuardHolds ⟨2, 1 / 2⟩ (idCorres 3).length
      (LoopState.mk idTransform 0 [triT] true).bestCount 1 := by
    constructor
    · norm_num
    · rw [idCorres_length]
      norm_num [sampleSize]
  have hst2 : updateBest (LoopState.mk idTransform 0 [triT] true) triT 0 =
      LoopState.mk idTransform 0 [triT, triT] true := by
    unfold updateBest
    rw [if_neg (by norm_num)]
    rfl
  rw [show (2 : ℕ) = 1 + 1 from rfl, ransacLoop_succ, if_pos hg0, tri_iter, hst1,
    show (1 : ℕ) = 0 + 1 from rfl, ransacLoop_succ, if_pos hg1, tri_iter, hst2,
    ransacLoop_zero]

theorem tri_valid : ValidArgs triSrc triDst (idCorres 3) (1 / 100) ⟨2, 1 / 2⟩ := by
  refine ⟨by simp [triSrc], by simp [triDst], ?_, by norm_num, by norm_num, by norm_num,
    by norm_num⟩
  intro c hc
  simp only [idCorres, List.mem_map, List.mem_range] at hc
  obtain ⟨i, hi, rfl⟩ := hc
  constructor <;> simpa [triSrc, triDst]

/-- Witness for the amended C2: the triangle run finds candidates (so the run
is not `noValidModel`) yet all of them score zero inliers, and `estimate`
returns the identity result with fitness 0. -/
theorem estimate_zero_inliers_witness :
    (ValidArgs triSrc triDst (idCorres 3) (1 / 100) ⟨2, 1 / 2⟩ ∧
      (ransacLoop triSrc triDst (idCorres 3) (1 / 100) ⟨2, 1 / 2⟩ (fun _ => 0)
        ((⟨2, 1 / 2⟩ : RANSACConvergenceCriteria).max_iterations).toNat 0
        initState).foundValid = true ∧
      ∀ T ∈ (ransacLoop triSrc triDst (idCorres 3) (1 / 100) ⟨2, 1 / 2⟩ (fun _ => 0)
        ((⟨2, 1 / 2⟩ : RANSACConvergenceCriteria).max_iterations).toNat 0
        initState).trace, countInliers T triSrc triDst (idCorres 3) (1 / 100) = 0) ∧
    estimate (fun _ => 0) triSrc triDst (idCorres 3) (1 / 100) ⟨2, 1 / 2⟩ =
      .ok { transformation := idTransform
            inlier_count := 0
            fitness := 0
            inlier_rmse_sq := 0 } := by
  have htoNat : ((⟨2, 1 / 2⟩ : RANSACConvergenceCriteria).max_iterations).toNat = 2 := rfl
  have hfv : (ransacLoop triSrc triDst (idCorres 3) (1 / 100) ⟨2, 1 / 2⟩ (fun _ => 0)
      ((⟨2, 1 / 2⟩ : RANSACConvergenceCriteria).max_iterations).toNat 0
      initState).foundValid = true := by
    rw [htoNat, tri_loop]
  have htr : ∀ T ∈ (ransacLoop triSrc triDst (idCorres 3) (1 / 100) ⟨2, 1 / 2⟩ (fun _ => 0)
      ((⟨2, 1 / 2⟩ : RANSACConvergenceCriteria).max_iterations).toNat 0
      initState).trace, countInliers T triSrc triDst (idCorres 3) (1 / 100) = 0 := by
    rw [htoNat, tri_loop]
    intro T hT
    simp only [List.mem_cons, List.not_mem_nil, or_false] at hT
    rcases hT with rfl | rfl <;> exact tri_count
  exact ⟨⟨tri_valid, hfv, htr⟩,
    estimate_zero_inliers (fun _ => 0) triSrc triDst (idCorres 3) (1 / 100) ⟨2, 1 / 2⟩
      tri_valid hfv htr⟩

/-- A point cloud as the script manipulates it: positions plus per-point
colors. -/
structure PointCloudT where
  positions : List Vec3
  colors : List Vec3
  deriving DecidableEq

/-- `pcd.transform(transformation)`: applies the rigid transform to every
position, leaving colors alone. -/
def pcTransform (T : RigidTransform) (pc : PointCloudT) : PointCloudT :=
  ⟨pc.positions.map (applyT T), pc.colors⟩

/-- `pcd.paint_uniform_color(c)`: sets every point's color to `c`. -/
def paint_uniform_color (c : Vec3) (pc : PointCloudT) : PointCloudT :=
  ⟨pc.positions, pc.positions.map (fun _ => c)⟩

/-- A heap of point-cloud objects: Python variables hold addresses into it,
and the mutating methods (`transform`, `paint_uniform_color`) write through
the address they are called on.  Addresses `≥ next` are free. -/
structure Store where
  cells : ℕ → PointCloudT
  next : ℕ

def readPC (s : Store) (a : ℕ) : PointCloudT := s.cells a

def writePC (s : Store) (a : ℕ) (v : PointCloudT) : Store :=
  ⟨Function.update s.cells a v, s.next⟩

/-- `deepcopy`: allocate a fresh object holding a copy of the value at `a`. -/
def deepcopy (s : Store) (a : ℕ) : Store × ℕ :=
  (⟨Function.update s.cells s.next (readPC s a), s.next + 1⟩, s.next)

/-- Embedding of `visualize_registration(src, dst, transformation)` from the
example script: deep-copy `src`, transform and paint the copy red; deep-copy
`dst` and paint the copy green; draw the two copies.  Returns the final heap
and the list of addresses passed to `draw`. -/
def visualize_registration (s : Store) (src dst : ℕ) (transformation : RigidTransform) :
    Store × List ℕ :=
  let c1 := deepcopy s src
  let s1 := c1.1
  let src_trans := c1.2
  let s2 := writePC s1 src_trans (pcTransform transformation (readPC s1 src_trans))
  let s3 := writePC s2 src_trans (paint_uniform_color ⟨1, 0, 0⟩ (readPC s2 src_trans))
  let c2 := deepcopy s3 dst
  let s4 := c2.1
  let dst_clone := c2.2
  let s5 := writePC s4 dst_clone (paint_uniform_color ⟨0, 1, 0⟩ (readPC s4 dst_clone))
  (s5, [src_trans, dst_clone])

/-- Claim C9: `visualize_registration` never mutates its `src` and `dst`
arguments — it deep-copies both clouds and applies the transformation and the
uniform colors only to the copies, so after the call the objects at `src` and
`dst` hold exactly their original values, and what is drawn are the two fresh
copies (transformed-and-painted `src`, painted `dst`). -/
theorem visualize_registration_frame (s : Store) (src dst : ℕ) (T : RigidTransform)
    (hsrc : src < s.next) (hdst : dst < s.next) :
    readPC (visualize_registration s src dst T).1 src = readPC s src ∧
      readPC (visualize_registration s src dst T).1 dst = readPC s dst ∧
      (visualize_registration s src dst T).2 = [s.next, s.next + 1] ∧
      readPC (visualize_registration s src dst T).1 s.next =
        paint_uniform_color ⟨1, 0, 0⟩ (pcTransform T (readPC s src)) ∧
      readPC (visualize_registration s src dst T).1 (s.next + 1) =
        paint_uniform_color ⟨0, 1, 0⟩ (readPC s dst) := by
  have hs1 : src ≠ s.next := by omega
  have hs2 : src ≠ s.next + 1 := by omega
  have hd1 : dst ≠ s.next := by omega
  have hd2 : dst ≠ s.next + 1 := by omega
  have hnn : s.next ≠ s.next + 1 := by omega
  refine ⟨?_, ?_, rfl, ?_, ?_⟩ <;>
    simp [visualize_registration, deepcopy, writePC, readPC,
      Function.update_noteq hs1, Function.update_noteq hs2, Function.update_noteq hd1,
      Function.update_noteq hd2, Function.update_noteq hnn,
      Function.update_noteq (Ne.symm hnn), Function.update_same]

/-- Witness for C9 at a concrete two-object heap. -/
theorem visualize_registration_frame_witness :
    (0 < (Store.mk (fun _ => ⟨[], []⟩) 2).next ∧ 1 < (Store.mk (fun _ => ⟨[], []⟩) 2).next) ∧
      readPC (visualize_registration (Store.mk (fun _ => ⟨[], []⟩) 2) 0 1 idTransform).1 0 =
        readPC (Store.mk (fun _ => ⟨[], []⟩) 2) 0 :=
  ⟨⟨by norm_num, by norm_num⟩,
    (visualize_registration_frame (Store.mk (fun _ => ⟨[], []⟩) 2) 0 1 idTransform
      (by norm_num) (by norm_num)).1⟩

/-- The script's command-line arguments with their parser defaults
(`voxel_size = 0.05`, `distance_multiplier = 1.5`,
`max_iterations = 100000`, `confidence = 0.999`, `mutual_filter = false`). -/
structure ScriptArgs where
  voxel_size : ℚ
  distance_multiplier : ℚ
  max_iterations : ℤ
  confidence : ℚ
  mutual_filter : Bool
  deriving DecidableEq

def defaultArgs : ScriptArgs := ⟨1 / 20, 3 / 2, 100000, 999 / 1000, false⟩

/-- `distance_threshold = args.distance_multiplier * voxel_size` (line 89 of
the script). -/
def distance_threshold (args : ScriptArgs) : ℚ :=
  args.distance_multiplier * args.voxel_size

/-- One call to `ransac_from_correspondences` as issued by the script's main
loop. -/
structure RansacCall where
  corres : List (ℕ × ℕ)
  max_correspondence_distance : ℚ
  criteria : RANSACConvergenceCriteria
  deriving DecidableEq

/-- The script's loop over the three correspondence variants (legacy, tensor
CPU, tensor CUDA): every iteration calls `ransac_from_correspondences` with
`max_correspondence_distance = distance_threshold` and
`RANSACConvergenceCriteria(args.max_iterations, args.confidence)`. -/
def mainLoopCalls (args : ScriptArgs)
    (corres_legacy corres_tensor_cpu corres_tensor_cuda : List (ℕ × ℕ)) : List RansacCall :=
  [corres_legacy, corres_tensor_cpu, corres_tensor_cuda].map
    (fun c => ⟨c, distance_threshold args, ⟨args.max_iterations, args.confidence⟩⟩)

/-- Claim C10: every `ransac_from_correspondences` call of the script's loop
uses `max_correspondence_distance = args.distance_multiplier * args.voxel_size`
— one single threshold for all three correspondence variants — and with the
parser defaults (1.5 and 0.05) this threshold is 0.075 = 3/40. -/
theorem distance_threshold_uniform (args : ScriptArgs)
    (corres_legacy corres_tensor_cpu corres_tensor_cuda : List (ℕ × ℕ)) :
    (∀ call ∈ mainLoopCalls args corres_legacy corres_tensor_cpu corres_tensor_cuda,
      call.max_correspondence_distance = args.distance_multiplier * args.voxel_size) ∧
      (mainLoopCalls args corres_legacy corres_tensor_cpu corres_tensor_cuda).length = 3 ∧
      distance_threshold defaultArgs = 3 / 40 := by
  refine ⟨?_, rfl, by norm_num [distance_threshold, defaultArgs]⟩
  intro call hc
  simp only [mainLoopCalls, List.map_cons, List.map_nil, List.mem_cons,
    List.not_mem_nil, or_false] at hc
  rcases hc with rfl | rfl | rfl <;> rfl

/-- Witness for C10 at concrete argument values. -/
theorem distance_threshold_uniform_witness :
    distance_threshold defaultArgs = 3 / 40 ∧
      (mainLoopCalls defaultArgs [] [] []).length = 3 ∧
      (RansacCall.mk [] (distance_threshold defaultArgs)
          ⟨defaultArgs.max_iterations, defaultArgs.confidence⟩).max_correspondence_distance =
        defaultArgs.distance_multiplier * defaultArgs.voxel_size :=
  ⟨(distance_threshold_uniform defaultArgs [] [] []).2.2,
    (distance_threshold_uniform defaultArgs [] [] []).2.1,
    (distance_threshold_uniform defaultArgs [] [] []).1
      (RansacCall.mk [] (distance_threshold defaultArgs)
        ⟨defaultArgs.max_iterations, defaultArgs.confidence⟩)
      (by simp [mainLoopCalls])⟩

end RansacReg
